import Mathlib

set_option maxHeartbeats 1000000

/-!
Shallow embedding of `src/mcp_server_neurolorap/storage.py` (class
`StorageManager`).

Paths are lists of components measured from the filesystem root.  A
filesystem is a finite association of paths to entries; `FS.lookup` is the
lstat view (it does not follow symbolic links).  Symbolic links store a raw
target, absolute or relative; resolution applies one level of link
indirection and normalises `..` / `.` components, matching how the Python
code uses `Path.resolve()` on the single symlink it manages.  Fallible
filesystem calls return `Except Err`, with `Err` naming the Python
exceptions the code can raise (`FileExistsError` from `Path.symlink_to` on
an existing path, `IsADirectoryError` from `Path.unlink` on a directory,
`FileNotFoundError`, and the `RuntimeError`s raised by the verification
code in `_create_directories` / `_create_symlinks`, which the spec calls
`DirectoryError` and `SymlinkError`).
-/

deriving instance DecidableEq for Except

/-- Error kinds surfaced by the storage manager operations. -/
inductive Err where
  | fileExists
  | isADirectory
  | notFound
  | directoryError
  | symlinkError
deriving DecidableEq

/-- A filesystem path: components from the root. -/
abbrev FPath := List String

/-- The raw target stored inside a symbolic link. -/
inductive LinkTarget where
  | abs (p : FPath)
  | rel (segs : List String)
deriving DecidableEq

/-- A filesystem entry: directory, regular file with content, or symlink. -/
inductive FSEntry where
  | dir
  | file (content : String)
  | symlink (t : LinkTarget)
deriving DecidableEq

/-- A filesystem: association of paths to entries (first match wins). -/
abbrev FS := List (FPath × FSEntry)

/-- Entry stored at a path, without following symlinks (lstat view). -/
def FS.lookup : FS → FPath → Option FSEntry
  | [], _ => none
  | (q, e) :: rest, p => if q = p then some e else FS.lookup rest p

/-- Store an entry at a path, replacing an existing binding. -/
def FS.set : FS → FPath → FSEntry → FS
  | [], p, e => [(p, e)]
  | (q, e0) :: rest, p, e =>
    if q = p then (q, e) :: rest else (q, e0) :: FS.set rest p e

/-- Delete the binding at a path. -/
def FS.remove : FS → FPath → FS
  | [], _ => []
  | (q, e) :: rest, p =>
    if q = p then FS.remove rest p else (q, e) :: FS.remove rest p

/-- One step of path normalisation: `..` pops, `.` is skipped. -/
def normStep (acc : FPath) (s : String) : FPath :=
  if s = ".." then acc.dropLast else if s = "." then acc else acc ++ [s]

/-- Normalise a component sequence into an absolute path. -/
def normalizePath (segs : List String) : FPath := segs.foldl normStep []

/-- Resolve a link target found in the directory `parent`. -/
def resolveOnce (parent : FPath) : LinkTarget → FPath
  | .abs p => normalizePath p
  | .rel segs => normalizePath (parent ++ segs)

/-- Python `Path.exists()`: follows a symlink (one level) before testing. -/
def FS.followExists (fs : FS) (p : FPath) : Bool :=
  match FS.lookup fs p with
  | none => false
  | some (.symlink t) => (FS.lookup fs (resolveOnce p.dropLast t)).isSome
  | some _ => true

/-- Python `Path.is_symlink()`. -/
def FS.isSymlinkB (fs : FS) (p : FPath) : Bool :=
  match FS.lookup fs p with
  | some (.symlink _) => true
  | _ => false

/-- Python `Path.resolve()` on the managed link: one level of indirection. -/
def resolvePath (fs : FS) (p : FPath) : FPath :=
  match FS.lookup fs p with
  | some (.symlink t) => resolveOnce p.dropLast t
  | _ => p

/-- True when `p` is the filesystem root or holds a directory. -/
def FS.isDirB (fs : FS) (p : FPath) : Bool :=
  p.isEmpty || decide (FS.lookup fs p = some .dir)

/-- One `mkdir` step tolerating an existing directory (`exist_ok`). -/
def mkdirOne (fs : FS) (p : FPath) : Except Err FS :=
  match FS.lookup fs p with
  | none => .ok (FS.set fs p .dir)
  | some .dir => .ok fs
  | some _ => .error .fileExists

/-- Nonempty prefixes of a path, shortest first. -/
def prefixesOf (p : FPath) : List FPath :=
  (List.range p.length).map (fun i => p.take (i + 1))

/-- Run `mkdirOne` over a list of paths in order. -/
def mkdirList : FS → List FPath → Except Err FS
  | fs, [] => .ok fs
  | fs, q :: rest =>
    match mkdirOne fs q with
    | .ok fs1 => mkdirList fs1 rest
    | .error e => .error e

/-- Python `Path.mkdir(parents=True, exist_ok=True)`. -/
def mkdirParents (fs : FS) (p : FPath) : Except Err FS :=
  mkdirList fs (prefixesOf p)

/-- Python `open(p, "w")` followed by a full write of `c`. -/
def writeFile (fs : FS) (p : FPath) (c : String) : Except Err FS :=
  match FS.lookup fs p with
  | some .dir => .error .isADirectory
  | some (.symlink _) => .error .notFound
  | _ =>
    if FS.isDirB fs p.dropLast then .ok (FS.set fs p (.file c))
    else .error .notFound

/-- Python `open(p, "r").read()`, following one level of symlink. -/
def readFile (fs : FS) (p : FPath) : Except Err String :=
  match FS.lookup fs p with
  | some (.file c) => .ok c
  | some .dir => .error .isADirectory
  | some (.symlink t) =>
    match FS.lookup fs (resolveOnce p.dropLast t) with
    | some (.file c) => .ok c
    | some .dir => .error .isADirectory
    | _ => .error .notFound
  | none => .error .notFound

/-- Python `Path.unlink()`: removes files and symlinks, not directories. -/
def unlink (fs : FS) (p : FPath) : Except Err FS :=
  match FS.lookup fs p with
  | none => .error .notFound
  | some .dir => .error .isADirectory
  | some _ => .ok (FS.remove fs p)

/-- Python `Path.symlink_to(t)`: fails if anything already sits at `p`. -/
def symlinkTo (fs : FS) (p : FPath) (t : LinkTarget) : Except Err FS :=
  if (FS.lookup fs p).isSome then .error .fileExists
  else if FS.isDirB fs p.dropLast then .ok (FS.set fs p (.symlink t))
  else .error .notFound

/-- Length of the longest common prefix of two component lists. -/
def commonPrefixLen : List String → List String → Nat
  | a :: as, b :: bs => if a = b then commonPrefixLen as bs + 1 else 0
  | _, _ => 0

/-- Python `os.path.relpath(target, start)` on absolute paths. -/
def relpath (target start : FPath) : List String :=
  List.replicate (start.length - commonPrefixLen target start) ".."
    ++ target.drop (commonPrefixLen target start)

/-- The fields computed by `StorageManager.__init__`. -/
structure SM where
  projectRoot : FPath
  projectName : String
  mcpDocsDir : FPath
  projectDocsDir : FPath
  neuroloraLink : FPath
  templatesDir : FPath
deriving DecidableEq

/-- Project-name derivation from `__init__`: `if subproject_id:` is Python
truthiness, so `None` and the empty string both take the bare base name. -/
def projectNameOf (base : String) (sub : Option String) : String :=
  match sub with
  | some s => if s = "" then base else base ++ "-" ++ s
  | none => base

/-- Python `Path.name` of the project root. -/
def baseNameOf (p : FPath) : String := p.getLastD ""

/-- Pure part of `StorageManager.__init__`: derive all layout paths. -/
def mkLayout (home root : FPath) (sub : Option String) (tdir : FPath) : SM :=
  { projectRoot := root
    projectName := projectNameOf (baseNameOf root) sub
    mcpDocsDir := home ++ [".mcp-docs"]
    projectDocsDir := home ++ [".mcp-docs", projectNameOf (baseNameOf root) sub]
    neuroloraLink := root ++ [".neurolora"]
    templatesDir := tdir }

/-- Full `StorageManager.__init__`: derives the layout and then ensures the
cache root `~/.mcp-docs` exists (`mkdir(parents=True, exist_ok=True)`). -/
def storageManagerInit (home root : FPath) (sub : Option String) (tdir : FPath)
    (fs : FS) : Except Err (SM × FS) :=
  Except.map (fun fs1 => (mkLayout home root sub tdir, fs1))
    (mkdirParents fs (home ++ [".mcp-docs"]))

/-- Durability marker `.initialized` inside the documents directory. -/
def markerPath (sm : SM) : FPath := sm.projectDocsDir ++ [".initialized"]

/-- Visibility poll from `_create_directories`: existence checked up to the
given fuel, against an unchanging filesystem. -/
def pollExists (fs : FS) (p : FPath) : Nat → Bool
  | 0 => false
  | n + 1 => if FS.followExists fs p then true else pollExists fs p n

/-- Visibility poll from `_create_symlinks`: `exists() and is_symlink()`. -/
def pollLinkVisible (fs : FS) (p : FPath) : Nat → Bool
  | 0 => false
  | n + 1 =>
    if FS.followExists fs p && FS.isSymlinkB fs p then true
    else pollLinkVisible fs p n

/-- `StorageManager._create_directories`: create the documents directory,
write and flush the marker, verify existence immediately, then poll. -/
def createDirectoriesFS (sm : SM) (fs : FS) : Except Err FS :=
  Except.bind (mkdirParents fs sm.projectDocsDir) (fun fs1 =>
    Except.bind (writeFile fs1 (markerPath sm) "initialized") (fun fs2 =>
      if FS.followExists fs2 sm.projectDocsDir then
        if pollExists fs2 sm.projectDocsDir 10 then .ok fs2
        else .error .directoryError
      else .error .directoryError))

/-- Postcondition check at the end of `_create_or_update_symlink`: the
link must exist, be a symlink, and resolve exactly to the target. -/
def verifySymlink (fs : FS) (linkPath targetPath : FPath) : Except Err FS :=
  if !(FS.followExists fs linkPath) then .error .symlinkError
  else if !(FS.isSymlinkB fs linkPath) then .error .symlinkError
  else if resolvePath fs linkPath ≠ targetPath then .error .symlinkError
  else .ok fs

/-- `StorageManager._create_or_update_symlink`: ensure the target directory,
compute the relative target, bring the link to the correct state following
the decision structure of the source, then verify the postcondition. -/
def createOrUpdateSymlink (fs : FS) (linkPath targetPath : FPath) :
    Except Err FS :=
  Except.bind (mkdirParents fs targetPath) (fun fs1 =>
    let relT : LinkTarget := .rel (relpath targetPath linkPath.dropLast)
    let stepped : Except Err FS :=
      if FS.followExists fs1 linkPath then
        if !(FS.isSymlinkB fs1 linkPath) then
          Except.bind (unlink fs1 linkPath)
            (fun fs2 => symlinkTo fs2 linkPath relT)
        else if resolvePath fs1 linkPath ≠ targetPath then
          Except.bind (unlink fs1 linkPath)
            (fun fs2 => symlinkTo fs2 linkPath relT)
        else .ok fs1
      else symlinkTo fs1 linkPath relT
    Except.bind stepped (fun fs3 => verifySymlink fs3 linkPath targetPath))

/-- `StorageManager._create_symlinks`: reconcile the link, then poll for its
visibility. -/
def createSymlinksFS (sm : SM) (fs : FS) : Except Err FS :=
  Except.bind (createOrUpdateSymlink fs sm.neuroloraLink sm.projectDocsDir)
    (fun fs1 =>
      if pollLinkVisible fs1 sm.neuroloraLink 10 then .ok fs1
      else .error .symlinkError)

/-- Log levels the template seeder can emit. -/
inductive LogLevel where
  | debug
  | warning
deriving DecidableEq

/-- `StorageManager._create_template_file`, with its log output: if the
destination exists it is a no-op; if the template is missing a warning is
logged and nothing is created; otherwise the template content is copied. -/
def createTemplateFileFS (sm : SM) (templateName outputName : String)
    (outputDir : FPath) (fs : FS) : Except Err (FS × List LogLevel) :=
  let outputFile := outputDir ++ [outputName]
  if FS.followExists fs outputFile then .ok (fs, [])
  else
    let templateFile := sm.templatesDir ++ [templateName]
    if FS.followExists fs templateFile then
      Except.bind (readFile fs templateFile) (fun content =>
        Except.bind (writeFile fs outputFile content)
          (fun fs1 => .ok (fs1, [.debug])))
    else .ok (fs, [.warning])

/-- Template seeding with the log output discarded, as `setup()` uses it. -/
def createTemplateFile (sm : SM) (templateName outputName : String)
    (outputDir : FPath) (fs : FS) : Except Err FS :=
  Except.map Prod.fst (createTemplateFileFS sm templateName outputName outputDir fs)

/-- `StorageManager.setup()`: directories, symlink, ignore file, task
files, in the source's order. -/
def setup (sm : SM) (fs : FS) : Except Err FS :=
  Except.bind (createDirectoriesFS sm fs) (fun fs1 =>
  Except.bind (createSymlinksFS sm fs1) (fun fs2 =>
  Except.bind (createTemplateFile sm "ignore.template" ".neuroloraignore"
      sm.projectRoot fs2) (fun fs3 =>
  Except.bind (createTemplateFile sm "todo.template.md" "TODO.md"
      sm.projectDocsDir fs3) (fun fs4 =>
  createTemplateFile sm "done.template.md" "DONE.md" sm.projectDocsDir fs4))))

/-- Fixed sleep interval of the visibility polls (`retry_delay = 0.1 s`). -/
def retryDelayMs : Nat := 100

/-- The polling loop of `_create_directories` against an abstract existence
oracle (`f i` is the result of the `i`-th existence query inside the loop;
fuel is `max_retries`).  Returns success flag, number of polling attempts
performed, and number of sleeps taken. -/
def pollLoop (f : Nat → Bool) : Nat → Nat → Bool × Nat × Nat
  | _, 0 => (false, 0, 0)
  | i, fuel + 1 =>
    if f i then (true, 1, 0)
    else
      let r := pollLoop f (i + 1) fuel
      (r.1, r.2.1 + 1, r.2.2 + 1)

/-- `_create_directories` against an abstract existence oracle: the
directory and marker writes succeed; `f 0` is the immediate pre-poll
verification, `f 1 .. f 10` the polled checks.  Returns the outcome, the
number of polling attempts performed, and the total milliseconds slept. -/
def createDirectoriesOracle (f : Nat → Bool) : Except Err Unit × Nat × Nat :=
  if f 0 then
    let r := pollLoop f 1 10
    if r.1 then (.ok (), r.2.1, r.2.2 * retryDelayMs)
    else (.error .directoryError, r.2.1, r.2.2 * retryDelayMs)
  else (.error .directoryError, 0, 0)

/-- Seeding destination of `ignore.template` (in the project root). -/
def destIgnore (sm : SM) : FPath := sm.projectRoot ++ [".neuroloraignore"]

/-- Seeding destination of `todo.template.md` (in the documents dir). -/
def destTodo (sm : SM) : FPath := sm.projectDocsDir ++ ["TODO.md"]

/-- Seeding destination of `done.template.md` (in the documents dir). -/
def destDone (sm : SM) : FPath := sm.projectDocsDir ++ ["DONE.md"]

/-- Bundled template path for a template name. -/
def tplPath (sm : SM) (tn : String) : FPath := sm.templatesDir ++ [tn]

/-- The bundled template store holds no symlinks: each of the three fixed
template paths is bound to a plain entry or absent. -/
def TplOk (sm : SM) (fs : FS) : Bool :=
  !(FS.isSymlinkB fs (tplPath sm "ignore.template")) &&
  !(FS.isSymlinkB fs (tplPath sm "todo.template.md")) &&
  !(FS.isSymlinkB fs (tplPath sm "done.template.md"))

/-- A path with no `..` or `.` components. -/
def CleanB (p : FPath) : Bool :=
  p.all (fun s => !(decide (s = "..")) && !(decide (s = ".")))

/-- Every nonempty prefix of `p` is absent or already a directory, so
`mkdir(parents=True, exist_ok=True)` can succeed. -/
def CanMkdirB (fs : FS) (p : FPath) : Bool :=
  (prefixesOf p).all
    (fun q => decide (FS.lookup fs q = none) ||
      decide (FS.lookup fs q = some .dir))

/-- State of the filesystem after a successful `setup()` run: everything a
second run observes.  The template disjunctions say each seed destination
either exists or its bundled template is missing. -/
structure SetupDone (sm : SM) (fs : FS) : Prop where
  dirs : ∀ q ∈ prefixesOf sm.projectDocsDir, FS.lookup fs q = some .dir
  marker : FS.lookup fs (markerPath sm) = some (.file "initialized")
  docsEx : FS.followExists fs sm.projectDocsDir = true
  linkEx : FS.followExists fs sm.neuroloraLink = true
  linkSym : FS.isSymlinkB fs sm.neuroloraLink = true
  linkRes : resolvePath fs sm.neuroloraLink = sm.projectDocsDir
  tplIgn : FS.followExists fs (destIgnore sm) = true ∨
    FS.followExists fs (tplPath sm "ignore.template") = false
  tplTodo : FS.followExists fs (destTodo sm) = true ∨
    FS.followExists fs (tplPath sm "todo.template.md") = false
  tplDone : FS.followExists fs (destDone sm) = true ∨
    FS.followExists fs (tplPath sm "done.template.md") = false

/-- A project root whose `.neurolora` entry pre-exists as a plain
directory. -/
def fsDirLink : FS :=
  [(["p"], .dir), (["p", "app"], .dir), (["h"], .dir),
   (["p", "app", ".neurolora"], .dir)]

/-- A project root whose `.neurolora` entry is a dangling symlink. -/
def fsDangling : FS :=
  [(["p"], .dir), (["p", "app"], .dir), (["h"], .dir),
   (["p", "app", ".neurolora"], .symlink (.abs ["h", "gone"]))]

/-- A project root whose `.neurolora` entry is a symlink to an existing but
wrong target. -/
def fsStale : FS :=
  [(["p"], .dir), (["p", "app"], .dir), (["h"], .dir), (["h", "other"], .dir),
   (["p", "app", ".neurolora"], .symlink (.abs ["h", "other"]))]

/-- Result of reconciling the stale link of `fsStale`. -/
def fsStaleOut : FS :=
  match createOrUpdateSymlink fsStale ["p", "app", ".neurolora"]
      ["h", ".mcp-docs", "app"] with
  | .ok fs => fs
  | .error _ => []

/-- A filesystem holding only the home directory. -/
def fsHomeOnly : FS := [(["h"], .dir)]

/-- A filesystem where the cache root `~/.mcp-docs` already exists. -/
def fsCacheReady : FS := [(["h"], .dir), (["h", ".mcp-docs"], .dir)]

/-- A documents directory already holding a user-edited `TODO.md`. -/
def fsSeedExisting : FS :=
  [(["r"], .dir), (["r", "TODO.md"], .file "custom edits")]

/-- Demonstration layout: home `/home`, root `/proj/app`, no subproject. -/
def smDemo : SM := mkLayout ["home"] ["proj", "app"] none ["pkg", "templates"]

/-- A fresh project filesystem with all three bundled templates present. -/
def fsFresh : FS :=
  [(["home"], .dir), (["proj"], .dir), (["proj", "app"], .dir),
   (["pkg"], .dir), (["pkg", "templates"], .dir),
   (["pkg", "templates", "ignore.template"], .file "ignore content"),
   (["pkg", "templates", "todo.template.md"], .file "todo content"),
   (["pkg", "templates", "done.template.md"], .file "done content")]

/-- The filesystem produced by the first `setup()` run on `fsFresh`. -/
def fsOnce : FS :=
  match setup smDemo fsFresh with
  | .ok fs => fs
  | .error _ => []

/-- Outcome predicate for a successful reconciliation: the call returns
without error and afterwards the link stores the relative target and
resolves exactly to the target directory. -/
def ReconcileFixes (fs : FS) (l d : FPath) : Prop :=
  match createOrUpdateSymlink fs l d with
  | .ok fs2 =>
    FS.lookup fs2 l = some (.symlink (.rel (relpath d l.dropLast))) ∧
    resolvePath fs2 l = d ∧ FS.isSymlinkB fs2 l = true ∧
    FS.followExists fs2 l = true
  | .error _ => False


theorem FS.lookup_set_self (fs : FS) (p : FPath) (e : FSEntry) :
    FS.lookup (FS.set fs p e) p = some e := by
  induction fs with
  | nil => simp [FS.set, FS.lookup]
  | cons hd tl ih =>
    obtain ⟨q, e0⟩ := hd
    by_cases h : q = p <;> simp [FS.set, FS.lookup, h, ih]

theorem FS.lookup_set_ne (fs : FS) (p r : FPath) (e : FSEntry) (h : r ≠ p) :
    FS.lookup (FS.set fs p e) r = FS.lookup fs r := by
  have hpr : p ≠ r := Ne.symm h
  induction fs with
  | nil => simp [FS.set, FS.lookup, hpr]
  | cons hd tl ih =>
    obtain ⟨q, e0⟩ := hd
    by_cases hq : q = p
    · subst hq
      simp [FS.set, FS.lookup, hpr]
    · simp [FS.set, FS.lookup, hq, ih]

theorem FS.set_same (fs : FS) (p : FPath) (e : FSEntry)
    (h : FS.lookup fs p = some e) : FS.set fs p e = fs := by
  induction fs with
  | nil => simp [FS.lookup] at h
  | cons hd tl ih =>
    obtain ⟨q, e0⟩ := hd
    by_cases hq : q = p
    · subst hq
      simp [FS.lookup] at h
      simp [FS.set, h]
    · simp [FS.lookup, hq] at h
      simp [FS.set, hq, ih h]

theorem FS.lookup_remove_self (fs : FS) (p : FPath) :
    FS.lookup (FS.remove fs p) p = none := by
  induction fs with
  | nil => simp [FS.remove, FS.lookup]
  | cons hd tl ih =>
    obtain ⟨q, e0⟩ := hd
    by_cases hq : q = p <;> simp [FS.remove, FS.lookup, hq, ih]

theorem FS.lookup_remove_ne (fs : FS) (p r : FPath) (h : r ≠ p) :
    FS.lookup (FS.remove fs p) r = FS.lookup fs r := by
  have hpr : p ≠ r := Ne.symm h
  induction fs with
  | nil => simp [FS.remove]
  | cons hd tl ih =>
    obtain ⟨q, e0⟩ := hd
    by_cases hq : q = p
    · subst hq
      simp [FS.remove, FS.lookup, hpr, ih]
    · simp [FS.remove, FS.lookup, hq, ih]

theorem FS.isSome_lookup_set (fs : FS) (p r : FPath) (e : FSEntry)
    (h : (FS.lookup fs r).isSome) : (FS.lookup (FS.set fs p e) r).isSome := by
  by_cases hr : r = p
  · subst hr; simp [FS.lookup_set_self]
  · rwa [FS.lookup_set_ne fs p r e hr]

theorem length_le_of_mem_prefixesOf (p q : FPath) (h : q ∈ prefixesOf p) :
    q.length ≤ p.length := by
  simp only [prefixesOf, List.mem_map, List.mem_range] at h
  obtain ⟨i, _, rfl⟩ := h
  simp [List.length_take]

theorem self_mem_prefixesOf (p : FPath) (h : p ≠ []) : p ∈ prefixesOf p := by
  have hl : 0 < p.length := List.length_pos.mpr h
  simp only [prefixesOf, List.mem_map, List.mem_range]
  refine ⟨p.length - 1, by omega, ?_⟩
  have : p.length - 1 + 1 = p.length := by omega
  rw [this, List.take_length]

theorem append_singleton_not_mem_prefixesOf (p a : FPath) (x : String)
    (hlen : p.length < (a ++ [x]).length) : a ++ [x] ∉ prefixesOf p := by
  intro h
  have := length_le_of_mem_prefixesOf p _ h
  omega

theorem append_singleton_ne (a b : List String) (x y : String) (hx : x ≠ y) :
    a ++ [x] ≠ b ++ [y] := by
  intro h
  have h2 := congrArg (fun l : List String => l.reverse.head?) h
  simp at h2
  exact hx h2

theorem mkdirList_ok (l : List FPath) : ∀ fs fs' : FS,
    mkdirList fs l = .ok fs' →
    (∀ q ∈ l, FS.lookup fs' q = some .dir) ∧
    (∀ r, r ∉ l → FS.lookup fs' r = FS.lookup fs r) ∧
    (∀ r, FS.lookup fs' r = FS.lookup fs r ∨
      (FS.lookup fs r = none ∧ FS.lookup fs' r = some .dir)) := by
  induction l with
  | nil =>
    intro fs fs' h
    simp only [mkdirList] at h
    cases h
    exact ⟨by simp, fun r _ => rfl, fun r => Or.inl rfl⟩
  | cons q rest ih =>
    intro fs fs' h
    simp only [mkdirList] at h
    cases hq : mkdirOne fs q with
    | error e => rw [hq] at h; cases h
    | ok fs1 =>
      rw [hq] at h
      obtain ⟨D, U, C⟩ := ih fs1 fs' h
      simp only [mkdirOne] at hq
      cases he : FS.lookup fs q with
      | none =>
        rw [he] at hq
        cases hq
        refine ⟨?_, ?_, ?_⟩
        · intro q' hq'
          rcases List.mem_cons.mp hq' with hq' | hq'
          · subst hq'
            rcases C q' with hc | hc
            · rw [hc, FS.lookup_set_self]
            · exact hc.2
          · exact D q' hq'
        · intro r hr
          rw [List.mem_cons] at hr
          push_neg at hr
          rw [U r hr.2, FS.lookup_set_ne fs q r _ hr.1]
        · intro r
          by_cases hr : r = q
          · subst hr
            rcases C r with hc | hc
            · exact Or.inr ⟨he, by rw [hc, FS.lookup_set_self]⟩
            · obtain ⟨h1, h2⟩ := hc
              rw [FS.lookup_set_self] at h1
              cases h1
          · rcases C r with hc | hc
            · rw [hc, FS.lookup_set_ne fs q r _ hr]
              exact Or.inl rfl
            · rw [FS.lookup_set_ne fs q r _ hr] at hc
              exact Or.inr hc
      | some e =>
        rw [he] at hq
        cases e with
        | dir =>
          cases hq
          refine ⟨?_, fun r hr => U r (fun hh => hr (List.mem_cons_of_mem _ hh)), C⟩
          intro q' hq'
          rcases List.mem_cons.mp hq' with hq' | hq'
          · subst hq'
            rcases C q' with hc | hc
            · rw [hc, he]
            · exact hc.2
          · exact D q' hq'
        | file c => cases hq
        | symlink t => cases hq

theorem mkdirList_noop (l : List FPath) : ∀ fs : FS,
    (∀ q ∈ l, FS.lookup fs q = some .dir) → mkdirList fs l = .ok fs := by
  induction l with
  | nil => intro fs _; rfl
  | cons q rest ih =>
    intro fs h
    have hq : FS.lookup fs q = some .dir := h q (List.mem_cons_self q rest)
    simp only [mkdirList, mkdirOne, hq]
    exact ih fs (fun q' hq' => h q' (List.mem_cons_of_mem _ hq'))

theorem mkdirList_can (l : List FPath) : ∀ fs : FS,
    (∀ q ∈ l, FS.lookup fs q = none ∨ FS.lookup fs q = some .dir) →
    ∃ fs', mkdirList fs l = .ok fs' := by
  induction l with
  | nil => intro fs _; exact ⟨fs, rfl⟩
  | cons q rest ih =>
    intro fs h
    rcases h q (List.mem_cons_self q rest) with hq | hq
    · have hrest : ∀ q' ∈ rest,
          FS.lookup (FS.set fs q .dir) q' = none ∨
          FS.lookup (FS.set fs q .dir) q' = some .dir := by
        intro q' hq'
        by_cases hqq : q' = q
        · subst hqq; rw [FS.lookup_set_self]; exact Or.inr rfl
        · rw [FS.lookup_set_ne fs q q' _ hqq]
          exact h q' (List.mem_cons_of_mem _ hq')
      obtain ⟨fs', hfs'⟩ := ih (FS.set fs q .dir) hrest
      exact ⟨fs', by simp only [mkdirList, mkdirOne, hq]; exact hfs'⟩
    · obtain ⟨fs', hfs'⟩ := ih fs (fun q' hq' => h q' (List.mem_cons_of_mem _ hq'))
      exact ⟨fs', by simp only [mkdirList, mkdirOne, hq]; exact hfs'⟩

theorem followExists_of_dir (fs : FS) (p : FPath)
    (h : FS.lookup fs p = some .dir) : FS.followExists fs p = true := by
  simp [FS.followExists, h]

theorem followExists_of_file (fs : FS) (p : FPath) (c : String)
    (h : FS.lookup fs p = some (.file c)) : FS.followExists fs p = true := by
  simp [FS.followExists, h]

theorem followExists_of_none (fs : FS) (p : FPath)
    (h : FS.lookup fs p = none) : FS.followExists fs p = false := by
  simp [FS.followExists, h]

theorem followExists_true_congr (fs fs2 : FS) (p : FPath)
    (h : FS.lookup fs2 p = FS.lookup fs p)
    (hs : ∀ r, (FS.lookup fs r).isSome → (FS.lookup fs2 r).isSome)
    (hex : FS.followExists fs p = true) : FS.followExists fs2 p = true := by
  cases he : FS.lookup fs p with
  | none => rw [followExists_of_none fs p he] at hex; cases hex
  | some e =>
    cases e with
    | dir => simp [FS.followExists, h, he]
    | file c => simp [FS.followExists, h, he]
    | symlink t =>
      simp only [FS.followExists, he] at hex
      simp only [FS.followExists, h, he]
      exact hs _ hex

theorem resolvePath_congr (fs fs2 : FS) (p : FPath)
    (h : FS.lookup fs2 p = FS.lookup fs p) :
    resolvePath fs2 p = resolvePath fs p := by
  unfold resolvePath
  rw [h]

theorem isSymlinkB_congr (fs fs2 : FS) (p : FPath)
    (h : FS.lookup fs2 p = FS.lookup fs p) :
    FS.isSymlinkB fs2 p = FS.isSymlinkB fs p := by
  unfold FS.isSymlinkB
  rw [h]

theorem writeFile_ok (fs fs' : FS) (p : FPath) (c : String)
    (h : writeFile fs p c = .ok fs') :
    fs' = FS.set fs p (.file c) ∧
    (FS.lookup fs p = none ∨ ∃ c0, FS.lookup fs p = some (.file c0)) ∧
    FS.isDirB fs p.dropLast = true := by
  cases he : FS.lookup fs p with
  | none =>
    simp only [writeFile, he] at h
    cases hd : FS.isDirB fs p.dropLast <;> rw [hd] at h <;> simp at h
    exact ⟨h.symm, Or.inl rfl, rfl⟩
  | some e =>
    cases e with
    | dir => simp [writeFile, he] at h
    | file c0 =>
      simp only [writeFile, he] at h
      cases hd : FS.isDirB fs p.dropLast <;> rw [hd] at h <;> simp at h
      exact ⟨h.symm, Or.inr ⟨c0, rfl⟩, rfl⟩
    | symlink t => simp [writeFile, he] at h

theorem unlink_ok (fs fs' : FS) (p : FPath) (h : unlink fs p = .ok fs') :
    fs' = FS.remove fs p ∧ ∃ e, FS.lookup fs p = some e ∧ e ≠ .dir := by
  cases he : FS.lookup fs p with
  | none => simp [unlink, he] at h
  | some e =>
    cases e with
    | dir => simp [unlink, he] at h
    | file c =>
      simp only [unlink, he] at h
      simp at h
      exact ⟨h.symm, ⟨.file c, rfl, by simp⟩⟩
    | symlink t =>
      simp only [unlink, he] at h
      simp at h
      exact ⟨h.symm, ⟨.symlink t, rfl, by simp⟩⟩

theorem symlinkTo_ok (fs fs' : FS) (p : FPath) (t : LinkTarget)
    (h : symlinkTo fs p t = .ok fs') :
    fs' = FS.set fs p (.symlink t) ∧ FS.lookup fs p = none ∧
    FS.isDirB fs p.dropLast = true := by
  unfold symlinkTo at h
  cases he : (FS.lookup fs p).isSome <;> rw [he] at h <;> simp at h
  cases hd : FS.isDirB fs p.dropLast <;> rw [hd] at h <;> simp at h
  exact ⟨h.symm, Option.not_isSome_iff_eq_none.mp (by rw [he]; simp), rfl⟩

theorem pollExists_of_true (fs : FS) (p : FPath) (n : Nat)
    (h : FS.followExists fs p = true) : pollExists fs p (n + 1) = true := by
  simp [pollExists, h]

theorem pollLinkVisible_of_true (fs : FS) (p : FPath) (n : Nat)
    (h1 : FS.followExists fs p = true) (h2 : FS.isSymlinkB fs p = true) :
    pollLinkVisible fs p (n + 1) = true := by
  simp [pollLinkVisible, h1, h2]


theorem except_bind_ok {α β : Type} (r : Except Err α) (f : α → Except Err β)
    (b : β) (h : Except.bind r f = .ok b) : ∃ a, r = .ok a ∧ f a = .ok b := by
  cases r with
  | error e => simp [Except.bind] at h
  | ok a => exact ⟨a, rfl, by simpa [Except.bind] using h⟩

theorem except_map_ok {α β : Type} (r : Except Err α) (f : α → β) (b : β)
    (h : Except.map f r = .ok b) : ∃ a, r = .ok a ∧ f a = b := by
  cases r with
  | error e => simp [Except.map] at h
  | ok a => exact ⟨a, rfl, by simpa [Except.map] using h⟩

theorem verifySymlink_ok (fs fs' : FS) (l d : FPath)
    (h : verifySymlink fs l d = .ok fs') :
    fs' = fs ∧ FS.followExists fs l = true ∧ FS.isSymlinkB fs l = true ∧
    resolvePath fs l = d := by
  unfold verifySymlink at h
  cases h1 : FS.followExists fs l <;> rw [h1] at h <;> simp at h
  cases h2 : FS.isSymlinkB fs l <;> rw [h2] at h <;> simp at h
  by_cases h3 : resolvePath fs l = d
  · rw [if_pos h3] at h
    simp at h
    exact ⟨h.symm, rfl, rfl, h3⟩
  · rw [if_neg h3] at h
    cases h

theorem cous_destruct (fs fs' : FS) (l d : FPath)
    (h : createOrUpdateSymlink fs l d = .ok fs') :
    ∃ fs1, mkdirParents fs d = .ok fs1 ∧
      ((FS.followExists fs1 l = true ∧ FS.isSymlinkB fs1 l = false ∧
        ∃ fs2, unlink fs1 l = .ok fs2 ∧
          symlinkTo fs2 l (.rel (relpath d l.dropLast)) = .ok fs') ∨
       (FS.followExists fs1 l = true ∧ FS.isSymlinkB fs1 l = true ∧
        resolvePath fs1 l ≠ d ∧
        ∃ fs2, unlink fs1 l = .ok fs2 ∧
          symlinkTo fs2 l (.rel (relpath d l.dropLast)) = .ok fs') ∨
       (FS.followExists fs1 l = true ∧ FS.isSymlinkB fs1 l = true ∧
        resolvePath fs1 l = d ∧ fs' = fs1) ∨
       (FS.followExists fs1 l = false ∧
        symlinkTo fs1 l (.rel (relpath d l.dropLast)) = .ok fs')) ∧
      FS.followExists fs' l = true ∧ FS.isSymlinkB fs' l = true ∧
      resolvePath fs' l = d := by
  unfold createOrUpdateSymlink at h
  obtain ⟨fs1, hm, h⟩ := except_bind_ok _ _ _ h
  simp only [] at h
  obtain ⟨fs3, hstep, hver⟩ := except_bind_ok _ _ _ h
  obtain ⟨hfs3, hv1, hv2, hv3⟩ := verifySymlink_ok _ _ _ _ hver
  subst hfs3
  refine ⟨fs1, hm, ?_, hv1, hv2, hv3⟩
  split at hstep
  · split at hstep
    · next hfe hsy =>
      obtain ⟨fs2, hu, hs⟩ := except_bind_ok _ _ _ hstep
      exact Or.inl ⟨hfe, by simpa using hsy, fs2, hu, hs⟩
    · split at hstep
      · next hfe hsy hres =>
        obtain ⟨fs2, hu, hs⟩ := except_bind_ok _ _ _ hstep
        exact Or.inr (Or.inl ⟨hfe, by simpa using hsy, hres, fs2, hu, hs⟩)
      · next hfe hsy hres =>
        cases hstep
        exact Or.inr (Or.inr (Or.inl
          ⟨hfe, by simpa using hsy, by simpa using hres, rfl⟩))
  · next hfe =>
    exact Or.inr (Or.inr (Or.inr ⟨by simpa using hfe, hstep⟩))

theorem cous_frame (fs fs' : FS) (l d : FPath)
    (h : createOrUpdateSymlink fs l d = .ok fs') :
    (∀ q ∈ prefixesOf d, FS.lookup fs' q = some .dir) ∧
    (∀ r, r ∉ prefixesOf d → r ≠ l → FS.lookup fs' r = FS.lookup fs r) := by
  obtain ⟨fs1, hm, hbr, _, _, _⟩ := cous_destruct fs fs' l d h
  obtain ⟨D, U, C⟩ := mkdirList_ok _ _ _ hm
  rcases hbr with ⟨hfe, hsy, fs2, hu, hs⟩ | ⟨hfe, hsy, hres, fs2, hu, hs⟩ |
    ⟨hfe, hsy, hres, hfs⟩ | ⟨hfe, hs⟩
  · obtain ⟨hfs2, e, he, hne⟩ := unlink_ok _ _ _ hu
    obtain ⟨hfs', hl2, hpd⟩ := symlinkTo_ok _ _ _ _ hs
    subst hfs2
    subst hfs'
    have hlnp : l ∉ prefixesOf d := by
      intro hl
      have hd := D l hl
      rw [he] at hd
      injection hd with hh
      exact hne hh
    refine ⟨?_, ?_⟩
    · intro q hq
      have hql : q ≠ l := fun hh => hlnp (hh ▸ hq)
      rw [FS.lookup_set_ne _ _ _ _ hql, FS.lookup_remove_ne _ _ _ hql]
      exact D q hq
    · intro r hr hrl
      rw [FS.lookup_set_ne _ _ _ _ hrl, FS.lookup_remove_ne _ _ _ hrl]
      exact U r hr
  · obtain ⟨hfs2, e, he, hne⟩ := unlink_ok _ _ _ hu
    obtain ⟨hfs', hl2, hpd⟩ := symlinkTo_ok _ _ _ _ hs
    subst hfs2
    subst hfs'
    have hlnp : l ∉ prefixesOf d := by
      intro hl
      have hd := D l hl
      rw [he] at hd
      injection hd with hh
      exact hne hh
    refine ⟨?_, ?_⟩
    · intro q hq
      have hql : q ≠ l := fun hh => hlnp (hh ▸ hq)
      rw [FS.lookup_set_ne _ _ _ _ hql, FS.lookup_remove_ne _ _ _ hql]
      exact D q hq
    · intro r hr hrl
      rw [FS.lookup_set_ne _ _ _ _ hrl, FS.lookup_remove_ne _ _ _ hrl]
      exact U r hr
  · subst hfs
    exact ⟨D, fun r hr _ => U r hr⟩
  · obtain ⟨hfs', hl1, hpd⟩ := symlinkTo_ok _ _ _ _ hs
    subst hfs'
    have hlnp : l ∉ prefixesOf d := by
      intro hl
      have hd := D l hl
      rw [hl1] at hd
      cases hd
    refine ⟨?_, ?_⟩
    · intro q hq
      have hql : q ≠ l := fun hh => hlnp (hh ▸ hq)
      rw [FS.lookup_set_ne _ _ _ _ hql]
      exact D q hq
    · intro r hr hrl
      rw [FS.lookup_set_ne _ _ _ _ hrl]
      exact U r hr

theorem cous_entry (fs fs' : FS) (l d : FPath)
    (h : createOrUpdateSymlink fs l d = .ok fs') :
    FS.lookup fs' l = some (.symlink (.rel (relpath d l.dropLast))) ∨
    FS.lookup fs' l = FS.lookup fs l := by
  obtain ⟨fs1, hm, hbr, _, _, _⟩ := cous_destruct fs fs' l d h
  obtain ⟨D, U, C⟩ := mkdirList_ok _ _ _ hm
  rcases hbr with ⟨hfe, hsy, fs2, hu, hs⟩ | ⟨hfe, hsy, hres, fs2, hu, hs⟩ |
    ⟨hfe, hsy, hres, hfs⟩ | ⟨hfe, hs⟩
  · obtain ⟨hfs', _, _⟩ := symlinkTo_ok _ _ _ _ hs
    subst hfs'
    exact Or.inl (FS.lookup_set_self _ _ _)
  · obtain ⟨hfs', _, _⟩ := symlinkTo_ok _ _ _ _ hs
    subst hfs'
    exact Or.inl (FS.lookup_set_self _ _ _)
  · subst hfs
    rcases C l with hc | ⟨hc1, hc2⟩
    · exact Or.inr hc
    · simp [FS.isSymlinkB, hc2] at hsy
  · obtain ⟨hfs', _, _⟩ := symlinkTo_ok _ _ _ _ hs
    subst hfs'
    exact Or.inl (FS.lookup_set_self _ _ _)

/-- C2: the spec claims that any non-symlink entry at the link path —
including a plain directory — is removed and replaced by a symlink.  The
code reaches `link_path.unlink()` on that branch, and `Path.unlink` cannot
remove a directory: with `.neurolora` a plain directory the call raises
`IsADirectoryError` instead of reconciling, so reconciliation aborts. -/
theorem unlink_directory_bug :
    createOrUpdateSymlink fsDirLink ["p", "app", ".neurolora"]
      ["h", ".mcp-docs", "app"] = .error .isADirectory ∧
    FS.lookup fsDirLink ["p", "app", ".neurolora"] = some .dir := by
  decide

/-- C3 counterexample: with an existence check that returns false
unconditionally, `_create_directories` raises at the immediate pre-poll
verification, after zero polling attempts and zero sleeps — not after 10
attempts as the claim states. -/
theorem retry_immediate_raise_counterexample :
    createDirectoriesOracle (fun _ => false) =
      (.error .directoryError, 0, 0) ∧
    (createDirectoriesOracle (fun _ => false)).2.1 ≠ 10 := by
  decide

/-- C3 amended: when the existence check is false unconditionally the
error is raised immediately with zero polling attempts; the
ten-attempt exhaustion (10 polls, 10 sleeps of 100 ms = 1000 ms) occurs
exactly when the immediate verification succeeds and every poll fails. -/
theorem retry_budget_amended (f : Nat → Bool) :
    (f 0 = false →
      createDirectoriesOracle f = (.error .directoryError, 0, 0)) ∧
    (f 0 = true → (∀ n, 1 ≤ n → n ≤ 10 → f n = false) →
      createDirectoriesOracle f = (.error .directoryError, 10, 1000)) := by
  constructor
  · intro h0
    simp [createDirectoriesOracle, h0]
  · intro h0 hf
    have h1 := hf 1 (by omega) (by omega)
    have h2 := hf 2 (by omega) (by omega)
    have h3 := hf 3 (by omega) (by omega)
    have h4 := hf 4 (by omega) (by omega)
    have h5 := hf 5 (by omega) (by omega)
    have h6 := hf 6 (by omega) (by omega)
    have h7 := hf 7 (by omega) (by omega)
    have h8 := hf 8 (by omega) (by omega)
    have h9 := hf 9 (by omega) (by omega)
    have h10 := hf 10 (by omega) (by omega)
    simp [createDirectoriesOracle, pollLoop, retryDelayMs, h0, h1, h2, h3,
      h4, h5, h6, h7, h8, h9, h10]

/-- Witness for the amended retry-budget theorem at two concrete
oracles. -/
theorem retry_budget_amended_witness :
    createDirectoriesOracle (fun _ => false) =
      (.error .directoryError, 0, 0) ∧
    createDirectoriesOracle (fun n => decide (n = 0)) =
      (.error .directoryError, 10, 1000) := by
  constructor
  · exact (retry_budget_amended (fun _ => false)).1 rfl
  · exact (retry_budget_amended (fun n => decide (n = 0))).2 (by decide)
      (fun n hn _ => by simp; omega)

/-- C5: if the seeding destination already exists — whatever it holds —
`_create_template_file` returns without error, changes nothing, and emits
no log. -/
theorem seeder_noop_when_dest_exists (sm : SM) (tn onm : String)
    (od : FPath) (fs : FS)
    (h : FS.followExists fs (od ++ [onm]) = true) :
    createTemplateFileFS sm tn onm od fs = .ok (fs, []) := by
  simp [createTemplateFileFS, h]

/-- Witness: seeding `TODO.md` over an existing user-edited file is a
no-op. -/
theorem seeder_noop_when_dest_exists_witness :
    createTemplateFileFS smDemo "todo.template.md" "TODO.md" ["r"]
      fsSeedExisting = .ok (fsSeedExisting, []) :=
  seeder_noop_when_dest_exists smDemo "todo.template.md" "TODO.md" ["r"]
    fsSeedExisting (by decide)

/-- C7: destination absent and bundled template absent: the seeder returns
without error, creates nothing, and logs exactly one warning. -/
theorem seeder_tolerates_missing_template (sm : SM) (tn onm : String)
    (od : FPath) (fs : FS)
    (h1 : FS.followExists fs (od ++ [onm]) = false)
    (h2 : FS.followExists fs (sm.templatesDir ++ [tn]) = false) :
    createTemplateFileFS sm tn onm od fs = .ok (fs, [.warning]) := by
  simp [createTemplateFileFS, h1, h2]

/-- Witness: both destination and template absent on a tiny filesystem. -/
theorem seeder_tolerates_missing_template_witness :
    createTemplateFileFS smDemo "todo.template.md" "TODO.md" ["r"]
      fsHomeOnly = .ok (fsHomeOnly, [.warning]) :=
  seeder_tolerates_missing_template smDemo "todo.template.md" "TODO.md"
    ["r"] fsHomeOnly (by decide) (by decide)

/-- C9: whenever reconciliation changed the entry stored at the link path,
the stored target is the relative path of the target directory computed
against the link's parent — by construction never an absolute target. -/
theorem symlink_target_relative (fs fs' : FS) (l d : FPath)
    (h : createOrUpdateSymlink fs l d = .ok fs')
    (hchg : FS.lookup fs' l ≠ FS.lookup fs l) :
    FS.lookup fs' l = some (.symlink (.rel (relpath d l.dropLast))) := by
  rcases cous_entry fs fs' l d h with hc | hc
  · exact hc
  · exact absurd hc hchg

/-- Witness: replacing the stale link of `fsStale` stores the relative
target `../../h/.mcp-docs/app`. -/
theorem symlink_target_relative_witness :
    FS.lookup fsStaleOut ["p", "app", ".neurolora"] =
      some (.symlink (.rel
        (relpath ["h", ".mcp-docs", "app"]
          (List.dropLast ["p", "app", ".neurolora"])))) :=
  symlink_target_relative fsStale fsStaleOut ["p", "app", ".neurolora"]
    ["h", ".mcp-docs", "app"] (by decide) (by decide)

/-- C8 counterexample: constructing the storage manager on a filesystem
without `~/.mcp-docs` creates that directory — the identity resolver does
have a filesystem side effect, contrary to the claim. -/
theorem init_mkdir_side_effect_counterexample :
    storageManagerInit ["h"] ["p"] none ["t"] fsHomeOnly =
      .ok (mkLayout ["h"] ["p"] none ["t"],
        fsHomeOnly ++ [(["h", ".mcp-docs"], .dir)]) ∧
    fsHomeOnly ++ [(["h", ".mcp-docs"], .dir)] ≠ fsHomeOnly := by
  decide

/-- C8 amended: the layout computed by `__init__` is a pure function of
the inputs (independent of the filesystem), and the only filesystem
effect is ensuring the cache root `~/.mcp-docs` exists; when the cache
root and its parents already exist the filesystem is returned
unchanged. -/
theorem identity_resolver_amended (home root tdir : FPath)
    (sub : Option String) :
    (∀ fs sm2 fs2, storageManagerInit home root sub tdir fs = .ok (sm2, fs2) →
      sm2 = mkLayout home root sub tdir ∧
      mkdirParents fs (home ++ [".mcp-docs"]) = .ok fs2) ∧
    (∀ fs, (∀ q ∈ prefixesOf (home ++ [".mcp-docs"]),
        FS.lookup fs q = some .dir) →
      storageManagerInit home root sub tdir fs =
        .ok (mkLayout home root sub tdir, fs)) := by
  constructor
  · intro fs sm2 fs2 h
    unfold storageManagerInit at h
    obtain ⟨fs1, hm, hp⟩ := except_map_ok _ _ _ h
    injection hp with hp1 hp2
    exact ⟨hp1.symm, by rw [hm, hp2]⟩
  · intro fs h
    unfold storageManagerInit mkdirParents
    rw [mkdirList_noop _ fs h]
    rfl

/-- Witness: on a filesystem where the cache root already exists,
construction returns the layout and the filesystem unchanged. -/
theorem identity_resolver_amended_witness :
    storageManagerInit ["h"] ["p"] none ["t"] fsCacheReady =
      .ok (mkLayout ["h"] ["p"] none ["t"], fsCacheReady) :=
  (identity_resolver_amended ["h"] ["p"] ["t"] none).2 fsCacheReady
    (by decide)

/-- C10: a provided-but-empty sub-identity behaves exactly like an absent
one — Python truthiness of the empty string — so the whole derived layout
(name, documents directory, link path) coincides. -/
theorem empty_subid_like_absent (home root tdir : FPath) :
    mkLayout home root (some "") tdir = mkLayout home root none tdir := by
  simp [mkLayout, projectNameOf]

/-- C6 counterexample: with the empty string as sub-identity the derived
name is the bare base name, not `baseName ++ "-" ++ ""` — Python
truthiness short-circuits the suffix, so the claim's universally stated
suffix rule fails at `s = ""`. -/
theorem empty_subid_name_counterexample :
    projectNameOf "app" (some "") = "app" ∧
    projectNameOf "app" (some "") ≠ "app" ++ "-" ++ "" := by
  decide

/-- C6 amended: for a nonempty sub-identity the namespace name is
`baseName ++ "-" ++ s` (and the bare base name when absent); the
derivation is deterministic and injective across nonempty sub-identities
and never collides with the absent case; on the claim's instances,
`"app"`/`"backend"` yields `"app-backend"`, distinct from the bare name,
with distinct documents directories. -/
theorem namespace_derivation_amended (root home tdir : FPath)
    (s s1 s2 : String) (hs : s ≠ "") (h1 : s1 ≠ "") (h2 : s2 ≠ "") :
    projectNameOf (baseNameOf root) none = baseNameOf root ∧
    projectNameOf (baseNameOf root) (some s) = baseNameOf root ++ "-" ++ s ∧
    (projectNameOf (baseNameOf root) (some s1) =
      projectNameOf (baseNameOf root) (some s2) → s1 = s2) ∧
    projectNameOf (baseNameOf root) (some s) ≠
      projectNameOf (baseNameOf root) none ∧
    (mkLayout home ["app"] (some "backend") tdir).projectName =
      "app-backend" ∧
    (mkLayout home ["app"] none tdir).projectName ≠
      (mkLayout home ["app"] (some "backend") tdir).projectName ∧
    (mkLayout home ["app"] none tdir).projectDocsDir ≠
      (mkLayout home ["app"] (some "backend") tdir).projectDocsDir ∧
    projectNameOf (baseNameOf root) (some s) =
      projectNameOf (baseNameOf root) (some s) := by
  refine ⟨rfl, by simp [projectNameOf, hs], ?_, ?_, rfl,
    fun hh => (by decide : ¬ ("app" : String) = "app-backend") hh, ?_, rfl⟩
  · intro h
    simp [projectNameOf, h1, h2] at h
    have hd := congrArg String.data h
    rw [String.data_append, String.data_append, String.data_append,
      String.data_append] at hd
    have hcancel := List.append_cancel_left hd
    obtain ⟨l1⟩ := s1
    obtain ⟨l2⟩ := s2
    exact congrArg String.mk (by simpa using hcancel)
  · intro h
    simp [projectNameOf, hs] at h
    have hlen := congrArg String.length h
    rw [String.length_append, String.length_append] at hlen
    have hone : ("-" : String).length = 1 := rfl
    omega
  · intro h
    have h4 : home ++ [".mcp-docs", ("app" : String)] =
        home ++ [".mcp-docs", "app-backend"] := h
    have h3 := congrArg (fun l : List String => l.reverse.head?) h4
    simp at h3

/-- Witness for the amended namespace-derivation theorem at the claim's
own instance. -/
theorem namespace_derivation_amended_witness :
    projectNameOf (baseNameOf ["proj", "app"]) (some "backend") =
      baseNameOf ["proj", "app"] ++ "-" ++ "backend" :=
  (namespace_derivation_amended ["proj", "app"] ["h"] ["t"] "backend"
    "be" "ck" (by decide) (by decide) (by decide)).2.1

theorem cleanB_mem (p : FPath) (h : CleanB p = true) :
    ∀ s ∈ p, s ≠ ".." ∧ s ≠ "." := by
  intro s hs
  simp only [CleanB, List.all_eq_true] at h
  have := h s hs
  simpa using this

theorem foldl_normStep_clean (p : FPath) : ∀ acc : FPath,
    (∀ s ∈ p, s ≠ ".." ∧ s ≠ ".") → p.foldl normStep acc = acc ++ p := by
  induction p with
  | nil => intro acc _; simp
  | cons s t ih =>
    intro acc h
    have hs := h s (List.mem_cons_self s t)
    simp only [List.foldl_cons]
    rw [show normStep acc s = acc ++ [s] from by simp [normStep, hs.1, hs.2]]
    rw [ih (acc ++ [s]) (fun s2 hs2 => h s2 (List.mem_cons_of_mem _ hs2))]
    simp

theorem foldl_normStep_dotdots (m : Nat) : ∀ acc : FPath,
    (List.replicate m "..").foldl normStep acc =
      acc.take (acc.length - m) := by
  induction m with
  | zero => intro acc; simp
  | succ n ih =>
    intro acc
    rw [List.replicate_succ, List.foldl_cons]
    rw [show normStep acc ".." = acc.dropLast from by simp [normStep]]
    rw [ih acc.dropLast]
    rw [List.dropLast_eq_take, List.take_take, List.length_take]
    congr 1
    omega

theorem commonPrefixLen_le_left : ∀ a b : List String,
    commonPrefixLen a b ≤ a.length := by
  intro a
  induction a with
  | nil => intro b; simp [commonPrefixLen]
  | cons x xs ih =>
    intro b
    cases b with
    | nil => simp [commonPrefixLen]
    | cons y ys =>
      by_cases hxy : x = y <;> simp [commonPrefixLen, hxy]
      exact ih ys

theorem commonPrefixLen_le_right : ∀ a b : List String,
    commonPrefixLen a b ≤ b.length := by
  intro a
  induction a with
  | nil => intro b; simp [commonPrefixLen]
  | cons x xs ih =>
    intro b
    cases b with
    | nil => simp [commonPrefixLen]
    | cons y ys =>
      by_cases hxy : x = y <;> simp [commonPrefixLen, hxy]
      exact ih ys

theorem take_commonPrefixLen_eq : ∀ a b : List String,
    a.take (commonPrefixLen a b) = b.take (commonPrefixLen a b) := by
  intro a
  induction a with
  | nil => intro b; simp [commonPrefixLen]
  | cons x xs ih =>
    intro b
    cases b with
    | nil => simp [commonPrefixLen]
    | cons y ys =>
      by_cases hxy : x = y <;> simp [commonPrefixLen, hxy]
      exact ih ys

theorem normalizePath_relpath (target start : FPath)
    (ht : CleanB target = true) (hs : CleanB start = true) :
    normalizePath (start ++ relpath target start) = target := by
  have hts := cleanB_mem target ht
  have hss := cleanB_mem start hs
  unfold normalizePath relpath
  rw [List.foldl_append, List.foldl_append]
  rw [foldl_normStep_clean start [] hss]
  rw [foldl_normStep_dotdots]
  have hk1 : commonPrefixLen target start ≤ start.length :=
    commonPrefixLen_le_right _ _
  rw [List.nil_append]
  rw [show start.length - (start.length - commonPrefixLen target start) =
    commonPrefixLen target start from by omega]
  rw [foldl_normStep_clean _ _
    (fun s2 hs2 => hts s2 (List.mem_of_mem_drop hs2))]
  rw [← take_commonPrefixLen_eq]
  exact List.take_append_drop _ _

theorem except_bind_ok_eq {α β : Type} (a : α) (f : α → Except Err β) :
    Except.bind (.ok a) f = f a := rfl

/-- C4 counterexample: a pre-existing symlink whose resolved target does
not exist (a dangling stale link).  `Path.exists()` follows the link and
returns false, so the code takes the does-not-exist branch and
`Path.symlink_to` raises `FileExistsError`: the stale link is neither
removed nor recreated. -/
theorem dangling_symlink_counterexample :
    FS.isSymlinkB fsDangling ["p", "app", ".neurolora"] = true ∧
    resolvePath fsDangling ["p", "app", ".neurolora"] = ["h", "gone"] ∧
    (["h", "gone"] : FPath) ≠ ["h", ".mcp-docs", "app"] ∧
    createOrUpdateSymlink fsDangling ["p", "app", ".neurolora"]
      ["h", ".mcp-docs", "app"] = .error .fileExists := by
  decide

/-- C4 amended: for every pre-existing symlink at the link path whose
resolved target exists and differs from the target directory, and on a
filesystem where the target directory can be created and the link's
parent is a directory, reconciliation removes the old link and recreates
it so that afterwards the link stores the relative target and resolves
exactly to the target directory. -/
theorem reconcile_wrong_target_amended (fs : FS) (l d : FPath)
    (t : LinkTarget)
    (hlink : FS.lookup fs l = some (.symlink t))
    (hX : (FS.lookup fs (resolveOnce l.dropLast t)).isSome = true)
    (hne : resolveOnce l.dropLast t ≠ d)
    (hcan : CanMkdirB fs d = true)
    (hpar : FS.isDirB fs l.dropLast = true)
    (hcd : CleanB d = true)
    (hcl : CleanB l.dropLast = true)
    (hd0 : d ≠ []) :
    ReconcileFixes fs l d := by
  have hprefix : ∀ q ∈ prefixesOf d,
      FS.lookup fs q = none ∨ FS.lookup fs q = some .dir := by
    intro q hq
    have := (List.all_eq_true.mp hcan) q hq
    simpa using this
  obtain ⟨fs1, hm⟩ := mkdirList_can (prefixesOf d) fs hprefix
  obtain ⟨D, U, C⟩ := mkdirList_ok (prefixesOf d) fs fs1 hm
  have hm2 : mkdirParents fs d = .ok fs1 := hm
  have hlp : l ∉ prefixesOf d := by
    intro hl
    rcases hprefix l hl with hc | hc <;> rw [hlink] at hc <;> cases hc
  have hl1 : FS.lookup fs1 l = some (.symlink t) := by
    rw [U l hlp]; exact hlink
  have hXsome : (FS.lookup fs1 (resolveOnce l.dropLast t)).isSome = true := by
    by_cases hXp : resolveOnce l.dropLast t ∈ prefixesOf d
    · rw [D _ hXp]; rfl
    · rw [U _ hXp]; exact hX
  have hfe1 : FS.followExists fs1 l = true := by
    simp [FS.followExists, hl1, hXsome]
  have hsy1 : FS.isSymlinkB fs1 l = true := by
    simp [FS.isSymlinkB, hl1]
  have hres1 : resolvePath fs1 l = resolveOnce l.dropLast t := by
    simp [resolvePath, hl1]
  have hu : unlink fs1 l = .ok (FS.remove fs1 l) := by
    simp [unlink, hl1]
  have hparne : l.dropLast ≠ [] → l.dropLast ≠ l := by
    intro hne2 hcon
    have hlen : l.dropLast.length = l.length - 1 := List.length_dropLast l
    have hl0 : l ≠ [] := by
      intro h0
      rw [h0] at hne2
      exact hne2 rfl
    have hpos : 0 < l.length := List.length_pos.mpr hl0
    rw [hcon] at hlen
    omega
  have hdir2 : FS.isDirB (FS.remove fs1 l) l.dropLast = true := by
    by_cases hp0 : l.dropLast = []
    · simp [FS.isDirB, hp0]
    · have hpl : l.dropLast ≠ l := hparne hp0
      have hpdir : FS.lookup fs l.dropLast = some .dir := by
        simp [FS.isDirB, hp0] at hpar
        exact hpar
      have hpdir1 : FS.lookup fs1 l.dropLast = some .dir := by
        by_cases hpp : l.dropLast ∈ prefixesOf d
        · exact D _ hpp
        · rw [U _ hpp]; exact hpdir
      simp [FS.isDirB, FS.lookup_remove_ne fs1 l l.dropLast hpl, hpdir1, hp0]
  have hsymt : symlinkTo (FS.remove fs1 l) l
      (.rel (relpath d l.dropLast)) =
      .ok (FS.set (FS.remove fs1 l) l
        (.symlink (.rel (relpath d l.dropLast)))) := by
    simp [symlinkTo, FS.lookup_remove_self, hdir2]
  have hdm : d ∈ prefixesOf d := self_mem_prefixesOf d hd0
  have hdl : d ≠ l := by
    intro hcon
    apply hlp
    rw [← hcon]
    exact hdm
  have hd3 : FS.lookup (FS.set (FS.remove fs1 l) l
      (.symlink (.rel (relpath d l.dropLast)))) d = some .dir := by
    rw [FS.lookup_set_ne _ _ _ _ hdl, FS.lookup_remove_ne _ _ _ hdl]
    exact D d hdm
  have hl3 : FS.lookup (FS.set (FS.remove fs1 l) l
      (.symlink (.rel (relpath d l.dropLast)))) l =
      some (.symlink (.rel (relpath d l.dropLast))) :=
    FS.lookup_set_self _ _ _
  have hrt : resolveOnce l.dropLast (.rel (relpath d l.dropLast)) = d := by
    simp only [resolveOnce]
    exact normalizePath_relpath d l.dropLast hcd hcl
  have hfe3 : FS.followExists (FS.set (FS.remove fs1 l) l
      (.symlink (.rel (relpath d l.dropLast)))) l = true := by
    simp [FS.followExists, hl3, hrt, hd3]
  have hsy3 : FS.isSymlinkB (FS.set (FS.remove fs1 l) l
      (.symlink (.rel (relpath d l.dropLast)))) l = true := by
    simp [FS.isSymlinkB, hl3]
  have hres3 : resolvePath (FS.set (FS.remove fs1 l) l
      (.symlink (.rel (relpath d l.dropLast)))) l = d := by
    simp [resolvePath, hl3, hrt]
  have hver : verifySymlink (FS.set (FS.remove fs1 l) l
      (.symlink (.rel (relpath d l.dropLast)))) l d =
      .ok (FS.set (FS.remove fs1 l) l
        (.symlink (.rel (relpath d l.dropLast)))) := by
    unfold verifySymlink
    rw [hfe3, hsy3, hres3]
    simp
  have hnotsym : ¬ ((!FS.isSymlinkB fs1 l) = true) := by
    simp [hsy1]
  have hres_ne : resolvePath fs1 l ≠ d := by
    rw [hres1]; exact hne
  have hrun : createOrUpdateSymlink fs l d =
      .ok (FS.set (FS.remove fs1 l) l
        (.symlink (.rel (relpath d l.dropLast)))) := by
    unfold createOrUpdateSymlink
    rw [hm2]
    simp only [except_bind_ok_eq]
    rw [if_pos hfe1, if_neg hnotsym, if_pos hres_ne]
    rw [hu]
    simp only [except_bind_ok_eq]
    rw [hsymt]
    simp only [except_bind_ok_eq]
    exact hver
  unfold ReconcileFixes
  rw [hrun]
  exact ⟨hl3, hres3, hsy3, hfe3⟩

/-- Witness: the stale-but-live link of `fsStale` is fixed by
reconciliation. -/
theorem reconcile_wrong_target_witness :
    ReconcileFixes fsStale ["p", "app", ".neurolora"]
      ["h", ".mcp-docs", "app"] :=
  reconcile_wrong_target_amended fsStale ["p", "app", ".neurolora"]
    ["h", ".mcp-docs", "app"] (.abs ["h", "other"]) (by decide) (by decide)
    (by decide) (by decide) (by decide) (by decide) (by decide) (by decide)

theorem marker_not_mem_prefixesOf (p : FPath) (x : String) :
    ∀ q ∈ prefixesOf p, q ≠ p ++ [x] := by
  intro q hq hcon
  have hle := length_le_of_mem_prefixesOf p q hq
  rw [hcon] at hle
  simp only [List.length_append, List.length_cons, List.length_nil] at hle
  omega

theorem followExists_false_entry (fs : FS) (p : FPath)
    (hfe : FS.followExists fs p = false)
    (hns : FS.isSymlinkB fs p = false) : FS.lookup fs p = none := by
  cases he : FS.lookup fs p with
  | none => rfl
  | some e =>
    cases e with
    | dir => rw [followExists_of_dir fs p he] at hfe; cases hfe
    | file c => rw [followExists_of_file fs p c he] at hfe; cases hfe
    | symlink t => simp [FS.isSymlinkB, he] at hns

theorem cd_noop (sm : SM) (fs : FS)
    (hdirs : ∀ q ∈ prefixesOf sm.projectDocsDir, FS.lookup fs q = some .dir)
    (hmarker : FS.lookup fs (markerPath sm) = some (.file "initialized"))
    (hdocs : FS.followExists fs sm.projectDocsDir = true) :
    createDirectoriesFS sm fs = .ok fs := by
  have hpar : FS.isDirB fs (markerPath sm).dropLast = true := by
    have hdk : (markerPath sm).dropLast = sm.projectDocsDir := by
      simp [markerPath]
    rw [hdk]
    by_cases h0 : sm.projectDocsDir = []
    · simp [FS.isDirB, h0]
    · simp [FS.isDirB, hdirs _ (self_mem_prefixesOf _ h0)]
  have hw : writeFile fs (markerPath sm) "initialized" = .ok fs := by
    rw [show (Except.ok fs : Except Err FS) =
      .ok (FS.set fs (markerPath sm) (.file "initialized")) from by
        rw [FS.set_same fs _ _ hmarker]]
    simp [writeFile, hmarker, hpar]
  unfold createDirectoriesFS mkdirParents
  rw [mkdirList_noop _ fs hdirs]
  simp only [except_bind_ok_eq]
  rw [hw]
  simp only [except_bind_ok_eq]
  rw [if_pos hdocs, if_pos (pollExists_of_true fs _ 9 hdocs)]

theorem cous_noop (fs : FS) (l d : FPath)
    (hdirs : ∀ q ∈ prefixesOf d, FS.lookup fs q = some .dir)
    (hex : FS.followExists fs l = true)
    (hsym : FS.isSymlinkB fs l = true)
    (hres : resolvePath fs l = d) :
    createOrUpdateSymlink fs l d = .ok fs := by
  unfold createOrUpdateSymlink mkdirParents
  rw [mkdirList_noop _ fs hdirs]
  simp only [except_bind_ok_eq]
  rw [if_pos hex]
  rw [if_neg (show ¬ ((!FS.isSymlinkB fs l) = true) from by simp [hsym])]
  rw [if_neg (not_not_intro hres)]
  simp only [except_bind_ok_eq]
  unfold verifySymlink
  rw [if_neg (show ¬ ((!FS.followExists fs l) = true) from by simp [hex])]
  rw [if_neg (show ¬ ((!FS.isSymlinkB fs l) = true) from by simp [hsym])]
  rw [if_neg (not_not_intro hres)]

theorem cs_noop (sm : SM) (fs : FS)
    (hdirs : ∀ q ∈ prefixesOf sm.projectDocsDir, FS.lookup fs q = some .dir)
    (hex : FS.followExists fs sm.neuroloraLink = true)
    (hsym : FS.isSymlinkB fs sm.neuroloraLink = true)
    (hres : resolvePath fs sm.neuroloraLink = sm.projectDocsDir) :
    createSymlinksFS sm fs = .ok fs := by
  unfold createSymlinksFS
  rw [cous_noop fs _ _ hdirs hex hsym hres]
  simp only [except_bind_ok_eq]
  rw [if_pos (pollLinkVisible_of_true fs _ 9 hex hsym)]

theorem seed_noop (sm : SM) (tn onm : String) (od : FPath) (fs : FS)
    (h : FS.followExists fs (od ++ [onm]) = true ∨
      FS.followExists fs (sm.templatesDir ++ [tn]) = false) :
    createTemplateFile sm tn onm od fs = .ok fs := by
  unfold createTemplateFile
  cases hex : FS.followExists fs (od ++ [onm]) with
  | true => simp [createTemplateFileFS, hex, Except.map]
  | false =>
    rcases h with h | h
    · rw [hex] at h; cases h
    · simp [createTemplateFileFS, hex, h, Except.map]

theorem setup_of_done (sm : SM) (fs : FS) (hd : SetupDone sm fs) :
    setup sm fs = .ok fs := by
  unfold setup
  rw [cd_noop sm fs hd.dirs hd.marker hd.docsEx]
  simp only [except_bind_ok_eq]
  rw [cs_noop sm fs hd.dirs hd.linkEx hd.linkSym hd.linkRes]
  simp only [except_bind_ok_eq]
  rw [seed_noop sm "ignore.template" ".neuroloraignore" sm.projectRoot fs
    hd.tplIgn]
  simp only [except_bind_ok_eq]
  rw [seed_noop sm "todo.template.md" "TODO.md" sm.projectDocsDir fs
    hd.tplTodo]
  simp only [except_bind_ok_eq]
  rw [seed_noop sm "done.template.md" "DONE.md" sm.projectDocsDir fs
    hd.tplDone]

theorem cd_post (sm : SM) (fs fs1 : FS)
    (h : createDirectoriesFS sm fs = .ok fs1) :
    (∀ q ∈ prefixesOf sm.projectDocsDir, FS.lookup fs1 q = some .dir) ∧
    FS.lookup fs1 (markerPath sm) = some (.file "initialized") ∧
    FS.followExists fs1 sm.projectDocsDir = true ∧
    (∀ r t2, FS.lookup fs1 r = some (.symlink t2) →
      FS.lookup fs r = some (.symlink t2)) := by
  unfold createDirectoriesFS at h
  obtain ⟨fsA, hmk, h⟩ := except_bind_ok _ _ _ h
  obtain ⟨fsB, hw, h⟩ := except_bind_ok _ _ _ h
  obtain ⟨hset, hprev, hpard⟩ := writeFile_ok _ _ _ _ hw
  subst hset
  obtain ⟨D, U, C⟩ := mkdirList_ok (prefixesOf sm.projectDocsDir) fs fsA hmk
  split at h
  · next hfe =>
    split at h
    · next hpoll =>
      cases h
      refine ⟨?_, FS.lookup_set_self _ _ _, hfe, ?_⟩
      · intro q hq
        rw [FS.lookup_set_ne fsA (markerPath sm) q (.file "initialized")
          (marker_not_mem_prefixesOf sm.projectDocsDir ".initialized" q hq)]
        exact D q hq
      · intro r t2 hr
        by_cases hrm : r = markerPath sm
        · subst hrm
          rw [FS.lookup_set_self] at hr
          cases hr
        · rw [FS.lookup_set_ne _ _ _ _ hrm] at hr
          rcases C r with hc | ⟨hc1, hc2⟩
          · rw [← hc]; exact hr
          · rw [hc2] at hr; cases hr
    · next => cases h
  · next => cases h

theorem cs_post (sm : SM) (fs fs1 : FS)
    (h : createSymlinksFS sm fs = .ok fs1) :
    createOrUpdateSymlink fs sm.neuroloraLink sm.projectDocsDir = .ok fs1 := by
  unfold createSymlinksFS at h
  obtain ⟨fsA, hc, h⟩ := except_bind_ok _ _ _ h
  split at h
  · cases h; exact hc
  · cases h

theorem seed_cases (sm : SM) (tn onm : String) (od : FPath) (fs fs' : FS)
    (h : createTemplateFile sm tn onm od fs = .ok fs') :
    (fs' = fs ∧ (FS.followExists fs (od ++ [onm]) = true ∨
      FS.followExists fs (sm.templatesDir ++ [tn]) = false)) ∨
    (∃ c, FS.followExists fs (od ++ [onm]) = false ∧
      (FS.lookup fs (od ++ [onm]) = none ∨
        ∃ c0, FS.lookup fs (od ++ [onm]) = some (.file c0)) ∧
      fs' = FS.set fs (od ++ [onm]) (.file c)) := by
  unfold createTemplateFile createTemplateFileFS at h
  simp only [] at h
  cases hex : FS.followExists fs (od ++ [onm]) with
  | true =>
    rw [if_pos hex] at h
    simp [Except.map] at h
    exact Or.inl ⟨h.symm, Or.inl rfl⟩
  | false =>
    rw [if_neg (show ¬ (FS.followExists fs (od ++ [onm]) = true) from by
      simp [hex])] at h
    cases htp : FS.followExists fs (sm.templatesDir ++ [tn]) with
    | false =>
      rw [if_neg (show ¬ (FS.followExists fs (sm.templatesDir ++ [tn]) = true)
        from by simp [htp])] at h
      simp [Except.map] at h
      exact Or.inl ⟨h.symm, Or.inr rfl⟩
    | true =>
      rw [if_pos htp] at h
      obtain ⟨pair, hb, hmap⟩ := except_map_ok _ _ _ h
      obtain ⟨content, hr, hwb⟩ := except_bind_ok _ _ _ hb
      obtain ⟨fsw, hw, hpair⟩ := except_bind_ok _ _ _ hwb
      obtain ⟨hsetw, hprev, hpard⟩ := writeFile_ok _ _ _ _ hw
      injection hpair with hpair
      refine Or.inr ⟨content, rfl, hprev, ?_⟩
      rw [← hmap, ← hpair]
      exact hsetw

theorem seed_preserve (sm : SM) (tn onm : String) (od : FPath) (fs fs' : FS)
    (h : createTemplateFile sm tn onm od fs = .ok fs') :
    (∀ r, FS.followExists fs r = true → FS.lookup fs' r = FS.lookup fs r) ∧
    (∀ r, FS.followExists fs r = true → FS.followExists fs' r = true) ∧
    (∀ r, FS.lookup fs r = none → r ≠ od ++ [onm] →
      FS.lookup fs' r = none) ∧
    (∀ r t2, FS.lookup fs' r = some (.symlink t2) →
      FS.lookup fs r = some (.symlink t2)) ∧
    (∀ q, FS.lookup fs q = some .dir → FS.lookup fs' q = some .dir) := by
  rcases seed_cases sm tn onm od fs fs' h with ⟨hq, _⟩ | ⟨c, hex, hprev, hq⟩
  · subst hq
    exact ⟨fun r _ => rfl, fun r hh => hh, fun r hh _ => hh,
      fun r t2 hh => hh, fun q hh => hh⟩
  · subst hq
    have hdest : ∀ r, FS.followExists fs r = true → r ≠ od ++ [onm] := by
      intro r hr hcon
      rw [hcon, hex] at hr
      cases hr
    refine ⟨?_, ?_, ?_, ?_, ?_⟩
    · intro r hr
      exact FS.lookup_set_ne _ _ _ _ (hdest r hr)
    · intro r hr
      exact followExists_true_congr fs _ r
        (FS.lookup_set_ne _ _ _ _ (hdest r hr))
        (fun r2 hr2 => FS.isSome_lookup_set _ _ _ _ hr2) hr
    · intro r hr hrd
      rw [FS.lookup_set_ne _ _ _ _ hrd]
      exact hr
    · intro r t2 hr
      by_cases hrd : r = od ++ [onm]
      · subst hrd
        rw [FS.lookup_set_self] at hr
        cases hr
      · rw [FS.lookup_set_ne _ _ _ _ hrd] at hr
        exact hr
    · intro q hq2
      have hqd : q ≠ od ++ [onm] := by
        intro hcon
        rw [hcon] at hq2
        rcases hprev with hp | ⟨c0, hp⟩ <;> rw [hp] at hq2 <;> cases hq2
      rw [FS.lookup_set_ne _ _ _ _ hqd]
      exact hq2

theorem isSymlinkB_true_iff (fs : FS) (p : FPath) :
    FS.isSymlinkB fs p = true ↔ ∃ t, FS.lookup fs p = some (.symlink t) := by
  unfold FS.isSymlinkB
  cases he : FS.lookup fs p with
  | none => simp
  | some e => cases e <;> simp

theorem seed_step_core (sm : SM) (tn onm : String) (od : FPath)
    (fsx fsy : FS) (h : createTemplateFile sm tn onm od fsx = .ok fsy)
    (hdirs : ∀ q ∈ prefixesOf sm.projectDocsDir, FS.lookup fsx q = some .dir)
    (hmarker : FS.lookup fsx (markerPath sm) = some (.file "initialized"))
    (hlex : FS.followExists fsx sm.neuroloraLink = true)
    (hlsym : FS.isSymlinkB fsx sm.neuroloraLink = true)
    (hlres : resolvePath fsx sm.neuroloraLink = sm.projectDocsDir) :
    (∀ q ∈ prefixesOf sm.projectDocsDir, FS.lookup fsy q = some .dir) ∧
    FS.lookup fsy (markerPath sm) = some (.file "initialized") ∧
    FS.followExists fsy sm.neuroloraLink = true ∧
    FS.isSymlinkB fsy sm.neuroloraLink = true ∧
    resolvePath fsy sm.neuroloraLink = sm.projectDocsDir := by
  obtain ⟨P1, P2, P3, P4, P5⟩ := seed_preserve sm tn onm od fsx fsy h
  refine ⟨fun q hq => P5 q (hdirs q hq), ?_, P2 _ hlex, ?_, ?_⟩
  · rw [P1 _ (followExists_of_file fsx _ _ hmarker)]
    exact hmarker
  · rw [isSymlinkB_congr fsx fsy _ (P1 _ hlex)]
    exact hlsym
  · rw [resolvePath_congr fsx fsy _ (P1 _ hlex)]
    exact hlres

theorem seed_estab (sm : SM) (tn onm : String) (od : FPath) (fsx fsy : FS)
    (h : createTemplateFile sm tn onm od fsx = .ok fsy) :
    FS.followExists fsy (od ++ [onm]) = true ∨
    FS.followExists fsy (sm.templatesDir ++ [tn]) = false := by
  rcases seed_cases sm tn onm od fsx fsy h with ⟨hq, hd⟩ | ⟨c, hex, hprev, hq⟩
  · subst hq; exact hd
  · subst hq
    exact Or.inl (followExists_of_file _ _ c (FS.lookup_set_self _ _ _))

theorem seed_disj_preserve (sm : SM) (tn onm : String) (od : FPath)
    (fsx fsy : FS) (dpath tpath : FPath)
    (h : createTemplateFile sm tn onm od fsx = .ok fsy)
    (htpne : tpath ≠ od ++ [onm])
    (htns : FS.isSymlinkB fsx tpath = false)
    (hd : FS.followExists fsx dpath = true ∨
      FS.followExists fsx tpath = false) :
    FS.followExists fsy dpath = true ∨
    FS.followExists fsy tpath = false := by
  obtain ⟨P1, P2, P3, P4, P5⟩ := seed_preserve sm tn onm od fsx fsy h
  rcases hd with hd | hd
  · exact Or.inl (P2 _ hd)
  · have hnone := followExists_false_entry fsx tpath hd htns
    exact Or.inr (followExists_of_none _ _ (P3 _ hnone htpne))

theorem seed_sym_preserve (sm : SM) (tn onm : String) (od : FPath)
    (fsx fsy : FS) (tp : FPath)
    (h : createTemplateFile sm tn onm od fsx = .ok fsy)
    (h0 : FS.isSymlinkB fsx tp = false) : FS.isSymlinkB fsy tp = false := by
  obtain ⟨P1, P2, P3, P4, P5⟩ := seed_preserve sm tn onm od fsx fsy h
  cases hb : FS.isSymlinkB fsy tp with
  | false => rfl
  | true =>
    obtain ⟨t2, ht2⟩ := (isSymlinkB_true_iff fsy tp).mp hb
    rw [(isSymlinkB_true_iff fsx tp).mpr ⟨t2, P4 tp t2 ht2⟩] at h0
    cases h0

theorem done_of_setup_general (sm : SM) (fs fs' : FS)
    (hml : markerPath sm ≠ sm.neuroloraLink)
    (hti : tplPath sm "ignore.template" ≠ sm.neuroloraLink)
    (htt : tplPath sm "todo.template.md" ≠ sm.neuroloraLink)
    (htd : tplPath sm "done.template.md" ≠ sm.neuroloraLink)
    (hd0 : sm.projectDocsDir ≠ [])
    (htpl : TplOk sm fs = true)
    (h : setup sm fs = .ok fs') : SetupDone sm fs' := by
  obtain ⟨hsymI, hsymT, hsymD⟩ :
      FS.isSymlinkB fs (tplPath sm "ignore.template") = false ∧
      FS.isSymlinkB fs (tplPath sm "todo.template.md") = false ∧
      FS.isSymlinkB fs (tplPath sm "done.template.md") = false := by
    simpa [TplOk, and_assoc] using htpl
  unfold setup at h
  obtain ⟨fs1, h1, h⟩ := except_bind_ok _ _ _ h
  obtain ⟨fs2, h2, h⟩ := except_bind_ok _ _ _ h
  obtain ⟨fs3, h3, h⟩ := except_bind_ok _ _ _ h
  obtain ⟨fs4, h4, h5⟩ := except_bind_ok _ _ _ h
  obtain ⟨D1, M1, E1, S1⟩ := cd_post sm fs fs1 h1
  have hc2 := cs_post sm fs1 fs2 h2
  obtain ⟨F2a, F2b⟩ := cous_frame fs1 fs2 _ _ hc2
  obtain ⟨fsz, _, _, V2a, V2b, V2c⟩ := cous_destruct fs1 fs2 _ _ hc2
  have hmnp : markerPath sm ∉ prefixesOf sm.projectDocsDir := by
    intro hq
    exact marker_not_mem_prefixesOf sm.projectDocsDir ".initialized"
      (markerPath sm) hq rfl
  have marker2 : FS.lookup fs2 (markerPath sm) =
      some (.file "initialized") := by
    rw [F2b _ hmnp hml]
    exact M1
  have hsym1 : ∀ tp, FS.isSymlinkB fs tp = false →
      FS.isSymlinkB fs1 tp = false := by
    intro tp h0
    cases hb : FS.isSymlinkB fs1 tp with
    | false => rfl
    | true =>
      obtain ⟨t2, ht2⟩ := (isSymlinkB_true_iff fs1 tp).mp hb
      rw [(isSymlinkB_true_iff fs tp).mpr ⟨t2, S1 tp t2 ht2⟩] at h0
      cases h0
  have hsym2 : ∀ tp, tp ≠ sm.neuroloraLink → FS.isSymlinkB fs1 tp = false →
      FS.isSymlinkB fs2 tp = false := by
    intro tp hne0 h0
    by_cases hp : tp ∈ prefixesOf sm.projectDocsDir
    · simp [FS.isSymlinkB, F2a tp hp]
    · rw [isSymlinkB_congr fs1 fs2 tp (F2b tp hp hne0)]
      exact h0
  have hsymI2 := hsym2 _ hti (hsym1 _ hsymI)
  have hsymT2 := hsym2 _ htt (hsym1 _ hsymT)
  have hsymD2 := hsym2 _ htd (hsym1 _ hsymD)
  -- stage 3: ignore file
  obtain ⟨D3, M3, L3a, L3b, L3c⟩ := seed_step_core sm
    "ignore.template" ".neuroloraignore" sm.projectRoot fs2 fs3 h3
    F2a marker2 V2a V2b V2c
  have disjI3 := seed_estab sm "ignore.template" ".neuroloraignore"
    sm.projectRoot fs2 fs3 h3
  have hsymT3 := seed_sym_preserve sm "ignore.template" ".neuroloraignore"
    sm.projectRoot fs2 fs3 _ h3 hsymT2
  have hsymD3 := seed_sym_preserve sm "ignore.template" ".neuroloraignore"
    sm.projectRoot fs2 fs3 _ h3 hsymD2
  have hsymI3 := seed_sym_preserve sm "ignore.template" ".neuroloraignore"
    sm.projectRoot fs2 fs3 _ h3 hsymI2
  -- stage 4: TODO.md
  obtain ⟨D4, M4, L4a, L4b, L4c⟩ := seed_step_core sm
    "todo.template.md" "TODO.md" sm.projectDocsDir fs3 fs4 h4
    D3 M3 L3a L3b L3c
  have hneIT : tplPath sm "ignore.template" ≠
      sm.projectDocsDir ++ ["TODO.md"] :=
    append_singleton_ne _ _ _ _ (by decide)
  have disjI4 := seed_disj_preserve sm "todo.template.md" "TODO.md"
    sm.projectDocsDir fs3 fs4 (destIgnore sm) (tplPath sm "ignore.template")
    h4 hneIT hsymI3 disjI3
  have disjT4 := seed_estab sm "todo.template.md" "TODO.md"
    sm.projectDocsDir fs3 fs4 h4
  have hsymT4 := seed_sym_preserve sm "todo.template.md" "TODO.md"
    sm.projectDocsDir fs3 fs4 _ h4 hsymT3
  -- stage 5: DONE.md
  obtain ⟨D5, M5, L5a, L5b, L5c⟩ := seed_step_core sm
    "done.template.md" "DONE.md" sm.projectDocsDir fs4 fs' h5
    D4 M4 L4a L4b L4c
  have hneID : tplPath sm "ignore.template" ≠
      sm.projectDocsDir ++ ["DONE.md"] :=
    append_singleton_ne _ _ _ _ (by decide)
  have hneTD : tplPath sm "todo.template.md" ≠
      sm.projectDocsDir ++ ["DONE.md"] :=
    append_singleton_ne _ _ _ _ (by decide)
  have disjI5 := seed_disj_preserve sm "done.template.md" "DONE.md"
    sm.projectDocsDir fs4 fs' (destIgnore sm) (tplPath sm "ignore.template")
    h5 hneID (seed_sym_preserve sm "todo.template.md" "TODO.md"
      sm.projectDocsDir fs3 fs4 _ h4 hsymI3) disjI4
  have disjT5 := seed_disj_preserve sm "done.template.md" "DONE.md"
    sm.projectDocsDir fs4 fs' (destTodo sm) (tplPath sm "todo.template.md")
    h5 hneTD hsymT4 disjT4
  have disjD5 := seed_estab sm "done.template.md" "DONE.md"
    sm.projectDocsDir fs4 fs' h5
  exact ⟨D5, M5,
    followExists_of_dir _ _ (D5 _ (self_mem_prefixesOf _ hd0)),
    L5a, L5b, L5c, disjI5, disjT5, disjD5⟩

/-- C1: a second `setup()` run in succession, with the same derived
layout and no external filesystem change in between, succeeds and
returns the filesystem byte-identically unchanged: the second run
re-creates no directory, rewrites the marker with identical content,
takes the symlink no-op branch, and skips every seed destination.
The bundled template store is assumed to hold no symlinks. -/
theorem setup_idempotent (home root tdir : FPath) (sub : Option String)
    (fs fs' : FS)
    (htpl : TplOk (mkLayout home root sub tdir) fs = true)
    (h : setup (mkLayout home root sub tdir) fs = .ok fs') :
    setup (mkLayout home root sub tdir) fs' = .ok fs' :=
  setup_of_done _ _ (done_of_setup_general _ fs fs'
    (append_singleton_ne _ _ _ _ (by decide))
    (append_singleton_ne _ _ _ _ (by decide))
    (append_singleton_ne _ _ _ _ (by decide))
    (append_singleton_ne _ _ _ _ (by decide))
    (by simp [mkLayout]) htpl h)

/-- Witness: after a first successful run on the fresh filesystem
`fsFresh`, the second run returns its result `fsOnce` unchanged. -/
theorem setup_idempotent_witness : setup smDemo fsOnce = .ok fsOnce :=
  setup_idempotent ["home"] ["proj", "app"] ["pkg", "templates"] none
    fsFresh fsOnce (by decide) (by decide)
